import Mathlib

/-!
# Verification of `azure-ad-token-validator`

A shallow embedding, in Lean 4, of the validation pipeline of the
`azure-ad-token-validator` TypeScript library, together with theorems about it.

The embedding covers:
* `SimpleCache` (src/SimpleCache.ts) — a string-keyed record, modelled as an
  association list where `setItem` prepends (so the newest write shadows older
  ones, matching JS record assignment) and `getItem` returns the newest entry;
* `validateRules` (src/SimpleValidator.ts) — the ordered, short-circuiting
  rule engine;
* `AzureAdTokenValidator` (src/AzureAdTokenValidator.ts) — the constructor
  check, `getPublicKey` (key resolution with caching), the three claim rules of
  `validateAdditionalClaims`, and the `validate` orchestrator.

External collaborators (the HTTP client, `jsonwebtoken`'s `decode`/`verify`)
are modelled as an explicit environment (`ValidateEnv`): each network fetch is
an `Except String` outcome (an `error` models a thrown transport error), the
decoder yields an `Option Jwt`, and the signature primitive is a function from
the exact invocation arguments to an outcome.  `getPublicKey` and `validate`
additionally return the number of key-set fetches performed and a trace of the
`verify` invocation, so that cache-hit / call-argument properties can be
stated.

JavaScript-specific semantics are modelled explicitly: string truthiness
(`undefined` and `""` are falsy), `a || b` on optional strings, and
`String.prototype.split(" ")` (which returns `[""]` on the empty string).
-/

deriving instance DecidableEq for Except

/-- JS truthiness of a plain string: `!s` is true exactly when `s` is empty. -/
def jsFalsyStr (s : String) : Bool :=
  s.data.isEmpty

/-- JS truthiness of an optional string claim: `undefined` and `""` are falsy. -/
def truthy : Option String → Bool
  | none => false
  | some s => !(jsFalsyStr s)

/-- JS `a || b` on optional string claims: `a` when `a` is truthy, else `b`. -/
def jsOr (a b : Option String) : Option String :=
  if truthy a then a else b

/-- JS `s.split(" ")` on a list of characters: splits at every single space,
keeping empty segments; the empty input yields one empty segment. -/
def jsSplitSpaceChars : List Char → List (List Char)
  | [] => [[]]
  | c :: cs =>
    let rest := jsSplitSpaceChars cs
    if c = ' ' then [] :: rest
    else
      match rest with
      | r :: rs => (c :: r) :: rs
      | [] => [[c]]

/-- JS `s.split(" ")`: in particular `"".split(" ") = [""]` and
`"a  b".split(" ") = ["a", "", "b"]`. -/
def jsSplitSpace (s : String) : List String :=
  (jsSplitSpaceChars s.data).map List.asString

/-- Models the JS test `alg.indexOf("RS") === 0`: the declared algorithm
begins with the characters `R`, `S`. -/
def algIsRS (alg : String) : Bool :=
  match alg.data with
  | c1 :: c2 :: _ => c1 == 'R' && c2 == 'S'
  | _ => false

/-! ## src/SimpleCache.ts -/

/-- `SimpleCache<T>`: a string-keyed record (`memoryCache: Record<string, T>`),
modelled as an association list whose head is the most recent write. -/
structure SimpleCache (T : Type) where
  memoryCache : List (String × T)
deriving DecidableEq, Repr

/-- `getItem`: the value most recently stored under `key`, if any
(`hasOwnProperty` guard ⇒ `undefined` for unset keys). -/
def SimpleCache.getItem {T : Type} (c : SimpleCache T) (key : String) : Option T :=
  match c.memoryCache.find? (fun kv => kv.1 == key) with
  | some kv => some kv.2
  | none => none

/-- `setItem`: record assignment `memoryCache[key] = value`; the new entry
shadows any previous one. -/
def SimpleCache.setItem {T : Type} (c : SimpleCache T) (key : String) (value : T) :
    SimpleCache T :=
  ⟨(key, value) :: c.memoryCache⟩

/-- The fresh cache `{}`. -/
def SimpleCache.empty (T : Type) : SimpleCache T := ⟨[]⟩

/-! ## src/SimpleValidator.ts -/

/-- `SimpleValidationRule<T>`: a predicate together with its failure message. -/
structure SimpleValidationRule (T : Type) where
  validate : T → Bool
  invalidMessage : String

/-- `SimpleValidationResult`: validity flag plus optional failure message. -/
structure SimpleValidationResult where
  isValid : Bool
  validationMessage : Option String
deriving DecidableEq, Repr

/-- `validateRules`: runs the rules in order and stops (`break`) at the first
rule whose predicate rejects the value, recording that rule's message. -/
def validateRules {T : Type} (value : T) :
    List (SimpleValidationRule T) → SimpleValidationResult
  | [] => { isValid := true, validationMessage := none }
  | rule :: rest =>
    if rule.validate value then validateRules value rest
    else { isValid := false, validationMessage := some rule.invalidMessage }

/-! ## src/AzureAdTokenValidator.ts — data model -/

/-- `AzureAdTokenValidationOptions`.  The three `string` fields are required by
the TypeScript type; an optional field that is absent is `none`.  A required
field "missing" at runtime is modelled by the empty string (JS falsy). -/
structure AzureAdTokenValidationOptions where
  tenantId : String
  audience : String
  metadataDocumentUri : String
  allowedApplicationIds : Option (List String)
  requiredScopes : Option (List String)
  validIssuers : Option (List String)
deriving DecidableEq, Repr

/-- The token-header fields the pipeline reads: `alg` and the optional `kid`. -/
structure AzureAdTokenHeader where
  alg : String
  kid : Option String
deriving DecidableEq, Repr

/-- The payload claims the pipeline reads (the payload is duck-typed; other
claims are ignored by every code path modelled here). -/
structure AzureAdTokenPayload where
  tid : Option String
  azp : Option String
  appid : Option String
  scp : Option String
deriving DecidableEq, Repr

/-- A decoded token: header, payload, signature. -/
structure Jwt where
  header : AzureAdTokenHeader
  payload : AzureAdTokenPayload
  signature : String
deriving DecidableEq, Repr

/-- `AzureAdKeyValue`: one signing key of the provider's key-set document. -/
structure AzureAdKeyValue where
  kid : String
  use : String
  x5t : String
  x5c : List String
deriving DecidableEq, Repr

/-- `AzureAdTokenValidationResult`. -/
structure AzureAdTokenValidationResult where
  accessToken : String
  decodedAccessToken : Option Jwt
  isValid : Bool
  validationMessage : Option String
deriving DecidableEq, Repr

/-- The validator instance: the options it was constructed with.  (The
per-instance metadata memo is part of `ValidateEnv` below.) -/
structure AzureAdTokenValidator where
  options : AzureAdTokenValidationOptions
deriving DecidableEq, Repr

/-- The constructor: throws `'"tenantId" value was not provided'` when
`!tenantId`, then `'"audience" value was not provided'` when `!audience`
(JS falsy = empty string); `metadataDocumentUri` is never checked.  No other
work — in particular no network activity — happens at construction. -/
def AzureAdTokenValidator.create (options : AzureAdTokenValidationOptions) :
    Except String AzureAdTokenValidator :=
  if jsFalsyStr options.tenantId then
    Except.error "\"tenantId\" value was not provided"
  else if jsFalsyStr options.audience then
    Except.error "\"audience\" value was not provided"
  else
    Except.ok ⟨options⟩

/-! ## src/AzureAdTokenValidator.ts — the three claim rules -/

/-- Rule 1 of `validateAdditionalClaims`:
`!!tokenPayload.tid && tokenPayload.tid === tenantId`. -/
def tenantCheck (tenantId : String) (p : AzureAdTokenPayload) : Bool :=
  match p.tid with
  | none => false
  | some tid => !(jsFalsyStr tid) && tid == tenantId

/-- The application id the code reads:
`tokenPayload.azp || tokenPayload.appid` (v2.0 `azp`, v1.0 `appid`). -/
def appIdClaim (p : AzureAdTokenPayload) : Option String :=
  jsOr p.azp p.appid

/-- Rule 2 of `validateAdditionalClaims`:
`!allowedApplicationIds || allowedApplicationIds.length === 0 ||
 (!!(azp || appid) && allowedApplicationIds.indexOf(azp || appid) >= 0)`. -/
def appAllowListCheck (allowedApplicationIds : Option (List String))
    (p : AzureAdTokenPayload) : Bool :=
  match allowedApplicationIds with
  | none => true
  | some l =>
    l.isEmpty || (truthy (appIdClaim p) && l.contains ((appIdClaim p).getD ""))

/-- `tokenPayload.scp?.split(" ") || []`: an absent `scp` yields `[]`; any
present string — including `""` — is split by JS `split(" ")`
(so `scp = ""` yields `[""]`). -/
def scopesAsArray (scp : Option String) : List String :=
  match scp with
  | none => []
  | some s => jsSplitSpace s

/-- Rule 3 of `validateAdditionalClaims`:
`!requiredScopes || requiredScopes.length === 0 ||
 requiredScopes.every(s => scopesAsArray.includes(s))`. -/
def scopeCheck (requiredScopes : Option (List String)) (p : AzureAdTokenPayload) :
    Bool :=
  match requiredScopes with
  | none => true
  | some req => req.isEmpty || req.all (fun s => (scopesAsArray p.scp).contains s)

/-- `validateAdditionalClaims`: the three rules, in source order, run through
`validateRules`. -/
def validateAdditionalClaims (tokenPayload : AzureAdTokenPayload)
    (opts : AzureAdTokenValidationOptions) : SimpleValidationResult :=
  validateRules tokenPayload
    [ { validate := fun p => tenantCheck opts.tenantId p,
        invalidMessage := "tenantId does not match" },
      { validate := fun p => appAllowListCheck opts.allowedApplicationIds p,
        invalidMessage := "authenticated applicationId not in allowed list" },
      { validate := fun p => scopeCheck opts.requiredScopes p,
        invalidMessage := "required scopes missing" } ]

/-! ## src/AzureAdTokenValidator.ts — key resolution (`getPublicKey`)

The process-wide `cache` and the HTTP fetch are passed explicitly.  The fetch
of `{jwks_uri}?appid={azp || appid}` is an `Except String` outcome supplied by
the environment: `error` models a thrown transport error (which
`throwFormattedError` re-throws), `ok keys` a successful key-set response.
The result carries the possibly-updated cache and the number of fetches
performed (0 or 1), so that cache-hit properties are statable. -/

/-- `getPublicKey`:
* no (or falsy) `kid` in the header → `undefined`, no fetch;
* cache hit → the cached key, no fetch;
* cache miss → fetch the key set; on success store every returned key with
  `cache.setItem(header.kid, publicKey)` — i.e. under the **requested** key id,
  each write shadowing the previous — then return `cache.getItem(header.kid)`;
  on fetch failure the (formatted) error propagates. -/
def getPublicKey (jwksFetch : Except String (List AzureAdKeyValue))
    (cache : SimpleCache AzureAdKeyValue) (token : Jwt) :
    Except String (Option AzureAdKeyValue × SimpleCache AzureAdKeyValue × Nat) :=
  match token.header.kid with
  | none => Except.ok (none, cache, 0)
  | some kid =>
    if jsFalsyStr kid then Except.ok (none, cache, 0)
    else
      match cache.getItem kid with
      | some cachedKey => Except.ok (some cachedKey, cache, 0)
      | none =>
        match jwksFetch with
        | Except.error e => Except.error e
        | Except.ok keys =>
          let cache2 := keys.foldl (fun c publicKey => c.setItem kid publicKey) cache
          Except.ok (cache2.getItem kid, cache2, 1)

/-! ## src/AzureAdTokenValidator.ts — the `validate` orchestrator -/

/-- The outcome of one invocation of `jsonwebtoken`'s `verify`:
success, a thrown `JsonWebTokenError`, or any other thrown exception. -/
inductive VerifyOutcome where
  | verified
  | jsonWebTokenError (message : String)
  | otherError (message : String)
deriving DecidableEq, Repr

/-- The exact arguments `validate` passes to `verify(accessToken, key,
{ algorithms, audience, issuer })`. -/
structure VerifyCall where
  token : String
  key : String
  algorithms : List String
  audience : String
  issuer : Option (List String)
deriving DecidableEq, Repr

/-- The external collaborators of one `validate` call: the per-instance
metadata memo and the outcome of `loadMetadata`'s fetch if needed, the result
of `decode(accessToken, { json: true, complete: true })`, the outcome of the
key-set fetch, and the behaviour of `verify` as a function of its arguments. -/
structure ValidateEnv where
  metadataLoaded : Bool
  metadataFetch : Except String Unit
  decodeResult : Option Jwt
  jwksFetch : Except String (List AzureAdKeyValue)
  verify : VerifyCall → VerifyOutcome

/-- `if (!this.metadata) await this.loadMetadata()`: a no-op when the metadata
memo is populated, otherwise the fetch outcome (errors propagate). -/
def metadataOutcome (env : ValidateEnv) : Except String Unit :=
  if env.metadataLoaded then Except.ok () else env.metadataFetch

/-- `-----BEGIN CERTIFICATE-----\n{cert}\n-----END CERTIFICATE-----`. -/
def pemWrap (cert : String) : String :=
  "-----BEGIN CERTIFICATE-----\n" ++ cert ++ "\n-----END CERTIFICATE-----"

/-- `publicKey.x5c[0]`; JS yields `undefined` for an empty array, which the
PEM template literal coerces to the string `"undefined"`. -/
def firstX5c (k : AzureAdKeyValue) : String :=
  k.x5c.headD "undefined"

/-- The verification key material: PEM-wrapped first certificate when
`alg.indexOf("RS") === 0`, the raw first value otherwise. -/
def verificationKey (alg : String) (publicKey : AzureAdKeyValue) : String :=
  if algIsRS alg then pemWrap (firstX5c publicKey) else firstX5c publicKey

/-- A `validate` trace: the `verify` invocation (if one happened) and the
number of key-set fetches performed. -/
structure ValidateTrace where
  verifyCall : Option VerifyCall
  jwksFetchCount : Nat
deriving DecidableEq, Repr

/-- `validate(accessToken)`.  An `Except.error` models a thrown exception
(transport failure or unrecognized `verify` exception); `Except.ok` carries the
`AzureAdTokenValidationResult`, the updated key cache, and the trace. -/
def validate (env : ValidateEnv) (opts : AzureAdTokenValidationOptions)
    (cache : SimpleCache AzureAdKeyValue) (accessToken : String) :
    Except String
      (AzureAdTokenValidationResult × SimpleCache AzureAdKeyValue × ValidateTrace) :=
  match metadataOutcome env with
  | Except.error e => Except.error e
  | Except.ok _ =>
    match env.decodeResult with
    | none =>
      Except.ok
        ({ accessToken := accessToken, decodedAccessToken := none, isValid := false,
           validationMessage := some "The access token could not be decoded" },
         cache, { verifyCall := none, jwksFetchCount := 0 })
    | some decoded =>
      match getPublicKey env.jwksFetch cache decoded with
      | Except.error e => Except.error e
      | Except.ok (none, cache2, n) =>
        Except.ok
          ({ accessToken := accessToken, decodedAccessToken := some decoded,
             isValid := false, validationMessage := some "Invalid key" },
           cache2, { verifyCall := none, jwksFetchCount := n })
      | Except.ok (some publicKey, cache2, n) =>
        let call : VerifyCall :=
          { token := accessToken,
            key := verificationKey decoded.header.alg publicKey,
            algorithms := [decoded.header.alg],
            audience := opts.audience,
            issuer := opts.validIssuers }
        match env.verify call with
        | VerifyOutcome.otherError e => Except.error e
        | VerifyOutcome.jsonWebTokenError msg =>
          Except.ok
            ({ accessToken := accessToken, decodedAccessToken := some decoded,
               isValid := false, validationMessage := some msg },
             cache2, { verifyCall := some call, jwksFetchCount := n })
        | VerifyOutcome.verified =>
          let tokenValidationResult := validateAdditionalClaims decoded.payload opts
          if tokenValidationResult.isValid then
            Except.ok
              ({ accessToken := accessToken, decodedAccessToken := some decoded,
                 isValid := true, validationMessage := none },
               cache2, { verifyCall := some call, jwksFetchCount := n })
          else
            Except.ok
              ({ accessToken := accessToken, decodedAccessToken := some decoded,
                 isValid := false,
                 validationMessage := tokenValidationResult.validationMessage },
               cache2, { verifyCall := some call, jwksFetchCount := n })

/-! ## A spec-side definition for the required-scopes rule (claim C7)

The spec words the rule with "empty/absent treated as no scopes"; the code's
`scp?.split(" ") || []` instead turns `scp = ""` into `[""]` (JS `split`).
The following definition follows the spec's words, for comparison. -/

/-- Modelled from the spec: the scope set of the required-scopes rule, with an
empty **or** absent scope claim carrying no scopes. -/
def specScopeSet (scp : Option String) : List String :=
  match scp with
  | none => []
  | some s => if jsFalsyStr s then [] else jsSplitSpace s

/-- Modelled from the spec: the required-scopes rule as the spec words it —
passes when the configured list is absent or empty, otherwise when every
configured scope is a member of `specScopeSet`. -/
def scopeCheckSpec (requiredScopes : Option (List String)) (scp : Option String) :
    Bool :=
  match requiredScopes with
  | none => true
  | some req => req.isEmpty || req.all (fun s => (specScopeSet scp).contains s)

/-! ## Concrete example inputs used by witnesses and counterexamples -/

/-- A signing key with identifier `"k1"`. -/
def exKey1 : AzureAdKeyValue :=
  { kid := "k1", use := "sig", x5t := "k1", x5c := ["certOne"] }

/-- A signing key with identifier `"k2"`. -/
def exKey2 : AzureAdKeyValue :=
  { kid := "k2", use := "sig", x5t := "k2", x5c := ["certTwo"] }

/-- A token header requesting key `"k1"` with an RSA algorithm. -/
def exHeaderK1 : AzureAdTokenHeader := { alg := "RS256", kid := some "k1" }

/-- A token header requesting key `"k2"`. -/
def exHeaderK2 : AzureAdTokenHeader := { alg := "RS256", kid := some "k2" }

/-- A payload that satisfies `exOpts` below. -/
def exPayload : AzureAdTokenPayload :=
  { tid := some "tenant", azp := some "app", appid := none,
    scp := some "Api.Connect" }

/-- A decoded token requesting key `"k1"`. -/
def exJwtK1 : Jwt := { header := exHeaderK1, payload := exPayload, signature := "s" }

/-- A decoded token requesting key `"k2"`. -/
def exJwtK2 : Jwt := { header := exHeaderK2, payload := exPayload, signature := "s" }

/-- Options: tenant `"tenant"`, audience `"aud"`, one required scope. -/
def exOpts : AzureAdTokenValidationOptions :=
  { tenantId := "tenant", audience := "aud", metadataDocumentUri := "meta",
    allowedApplicationIds := none, requiredScopes := some ["Api.Connect"],
    validIssuers := none }

/-- Options whose `metadataDocumentUri` is missing (JS-falsy). -/
def optsNoMetaUri : AzureAdTokenValidationOptions :=
  { tenantId := "tenant", audience := "aud", metadataDocumentUri := "",
    allowedApplicationIds := none, requiredScopes := none, validIssuers := none }

/-- Options whose `tenantId` is missing (JS-falsy). -/
def optsNoTenant : AzureAdTokenValidationOptions :=
  { tenantId := "", audience := "aud", metadataDocumentUri := "meta",
    allowedApplicationIds := none, requiredScopes := none, validIssuers := none }

/-- Options requiring the empty-string scope (claim C7's edge case). -/
def optsEmptyReqScope : AzureAdTokenValidationOptions :=
  { tenantId := "tenant", audience := "aud", metadataDocumentUri := "meta",
    allowedApplicationIds := none, requiredScopes := some [""],
    validIssuers := none }

/-- Options with one required scope `"A"`. -/
def optsReqA : AzureAdTokenValidationOptions :=
  { tenantId := "tenant", audience := "aud", metadataDocumentUri := "meta",
    allowedApplicationIds := none, requiredScopes := some ["A"],
    validIssuers := none }

/-- A payload whose scope claim is the empty string. -/
def pEmptyScp : AzureAdTokenPayload :=
  { tid := some "tenant", azp := none, appid := none, scp := some "" }

/-- A payload carrying scopes `"A"` and `"B"`. -/
def pScpAB : AzureAdTokenPayload :=
  { tid := some "tenant", azp := none, appid := none, scp := some "A B" }

/-- A payload failing both the tenant rule (against `exOpts`) and the
required-scopes rule (no scope claim at all). -/
def pBothFail : AzureAdTokenPayload :=
  { tid := some "x", azp := none, appid := none, scp := none }

/-! ## Helper lemmas -/

/-- `!s` in JS is true exactly on the empty string. -/
theorem jsFalsyStr_iff (s : String) : jsFalsyStr s = true ↔ s = "" := by
  constructor
  · intro h
    cases s with
    | mk data =>
      cases data with
      | nil => rfl
      | cons c cs => simp [jsFalsyStr] at h
  · intro h
    subst h
    decide

/-- `validateRules` produces a message exactly on the runs it rejects. -/
theorem validateRules_message_iff {T : Type} (v : T)
    (rules : List (SimpleValidationRule T)) :
    ((validateRules v rules).validationMessage.isSome = true ↔
      (validateRules v rules).isValid = false) := by
  induction rules with
  | nil => simp [validateRules]
  | cons r rs ih =>
    by_cases h : r.validate v
    · simpa [validateRules, h] using ih
    · simp [validateRules, h]

/-- `validateAdditionalClaims` as the nested conditional over the three rule
predicates, in source order. -/
theorem validateAdditionalClaims_eq (p : AzureAdTokenPayload)
    (opts : AzureAdTokenValidationOptions) :
    validateAdditionalClaims p opts =
      if tenantCheck opts.tenantId p then
        if appAllowListCheck opts.allowedApplicationIds p then
          if scopeCheck opts.requiredScopes p then
            { isValid := true, validationMessage := none }
          else
            { isValid := false, validationMessage := some "required scopes missing" }
        else
          { isValid := false,
            validationMessage := some "authenticated applicationId not in allowed list" }
      else
        { isValid := false, validationMessage := some "tenantId does not match" } := by
  rfl

/-! ## Claim theorems -/

/-- **C5**: the claims-policy engine evaluates exactly the three rules
tenant-match, application-allow-list, required-scopes, in that fixed order,
stopping at the first failing rule and reporting only that rule's message.  In
particular (first conjunct) a payload failing the tenant-match rule yields the
message `"tenantId does not match"` regardless of the other rules — so a
payload failing both the tenant rule and the required-scopes rule carries only
the tenant message. -/
theorem claims_engine_rule_order (p : AzureAdTokenPayload)
    (opts : AzureAdTokenValidationOptions) :
    (tenantCheck opts.tenantId p = false →
      validateAdditionalClaims p opts =
        { isValid := false, validationMessage := some "tenantId does not match" }) ∧
    (tenantCheck opts.tenantId p = true →
      appAllowListCheck opts.allowedApplicationIds p = false →
      validateAdditionalClaims p opts =
        { isValid := false,
          validationMessage := some "authenticated applicationId not in allowed list" }) ∧
    (tenantCheck opts.tenantId p = true →
      appAllowListCheck opts.allowedApplicationIds p = true →
      scopeCheck opts.requiredScopes p = false →
      validateAdditionalClaims p opts =
        { isValid := false, validationMessage := some "required scopes missing" }) ∧
    (tenantCheck opts.tenantId p = true →
      appAllowListCheck opts.allowedApplicationIds p = true →
      scopeCheck opts.requiredScopes p = true →
      validateAdditionalClaims p opts =
        { isValid := true, validationMessage := none }) := by
  refine ⟨fun h1 => ?_, fun h1 h2 => ?_, fun h1 h2 h3 => ?_, fun h1 h2 h3 => ?_⟩ <;>
    simp_all [validateAdditionalClaims_eq]

/-- Witness for C5: `pBothFail` fails both the tenant rule and the
required-scopes rule of `exOpts`, and the engine reports only
`"tenantId does not match"`. -/
theorem claims_engine_rule_order_witness :
    scopeCheck exOpts.requiredScopes pBothFail = false ∧
    validateAdditionalClaims pBothFail exOpts =
      { isValid := false, validationMessage := some "tenantId does not match" } :=
  ⟨by decide, (claims_engine_rule_order pBothFail exOpts).1 (by decide)⟩

/-- **C7 counterexample**: with `requiredScopes = [""]` and `scp = ""`, the
code's rule passes (JS `"".split(" ")` is `[""]`, which contains `""`), while
the claim — an empty scope claim carries *no* scopes — demands failure with
`"required scopes missing"`.  `scopeCheckSpec` is the claim's wording. -/
theorem scope_rule_empty_scp_counterexample :
    scopeCheck optsEmptyReqScope.requiredScopes pEmptyScp = true ∧
    scopeCheckSpec optsEmptyReqScope.requiredScopes pEmptyScp.scp = false ∧
    validateAdditionalClaims pEmptyScp optsEmptyReqScope =
      { isValid := true, validationMessage := none } := by
  decide

/-- **C7 (amended)**: the required-scopes rule passes for every payload when
the configured list is absent or empty; otherwise it passes exactly when every
configured scope is a member of the list obtained by JS-splitting the scope
claim on spaces, where an *absent* scope claim carries no scopes but an
*empty-string* scope claim splits to `[""]` (the single empty-string scope);
when the rule rejects (and the earlier rules passed) the engine reports
`"required scopes missing"`. -/
theorem required_scopes_rule_characterization
    (opts : AzureAdTokenValidationOptions) (p : AzureAdTokenPayload) :
    (opts.requiredScopes = none → scopeCheck opts.requiredScopes p = true) ∧
    (opts.requiredScopes = some [] → scopeCheck opts.requiredScopes p = true) ∧
    (∀ req, opts.requiredScopes = some req → req ≠ [] →
      (scopeCheck opts.requiredScopes p = true ↔
        ∀ s ∈ req, s ∈ scopesAsArray p.scp)) ∧
    scopesAsArray none = [] ∧
    scopesAsArray (some "") = [""] ∧
    (tenantCheck opts.tenantId p = true →
      appAllowListCheck opts.allowedApplicationIds p = true →
      scopeCheck opts.requiredScopes p = false →
      validateAdditionalClaims p opts =
        { isValid := false, validationMessage := some "required scopes missing" }) := by
  refine ⟨fun h => by simp [scopeCheck, h], fun h => by simp [scopeCheck, h],
    fun req hreq hne => ?_, by decide, by decide, fun h1 h2 h3 => ?_⟩
  · rw [hreq]
    simp [scopeCheck, List.isEmpty_iff, hne, List.all_eq_true, List.contains,
      List.elem_iff]
  · simp_all [validateAdditionalClaims_eq]

/-- Witness for C7 (amended): required scope `"A"` is found among the scopes
of `scp = "A B"`, so the rule passes. -/
theorem required_scopes_rule_characterization_witness :
    scopeCheck optsReqA.requiredScopes pScpAB = true :=
  ((required_scopes_rule_characterization optsReqA pScpAB).2.2.1 ["A"] rfl
    (by decide)).mpr (by decide)

/-- **C2 counterexample**: a configuration whose `metadataDocumentUri` is
missing (JS-falsy empty string) is accepted by the constructor — construction
does *not* fail for a missing `metadataDocumentUri`. -/
theorem construction_without_metadata_uri_succeeds :
    jsFalsyStr optsNoMetaUri.metadataDocumentUri = true ∧
    AzureAdTokenValidator.create optsNoMetaUri = Except.ok ⟨optsNoMetaUri⟩ := by
  decide

/-- **C2 (amended)**: construction fails immediately, with a descriptive
error and before any network activity (the constructor model performs none),
exactly when `tenantId` or `audience` is missing; `metadataDocumentUri` is not
checked, so construction succeeds whenever `tenantId` and `audience` are
present, whatever `metadataDocumentUri` is. -/
theorem construction_checks_tenant_and_audience_only
    (opts : AzureAdTokenValidationOptions) :
    (opts.tenantId = "" →
      AzureAdTokenValidator.create opts =
        Except.error "\"tenantId\" value was not provided") ∧
    (opts.tenantId ≠ "" → opts.audience = "" →
      AzureAdTokenValidator.create opts =
        Except.error "\"audience\" value was not provided") ∧
    (opts.tenantId ≠ "" → opts.audience ≠ "" →
      AzureAdTokenValidator.create opts = Except.ok ⟨opts⟩) := by
  refine ⟨fun h1 => ?_, fun h1 h2 => ?_, fun h1 h2 => ?_⟩ <;>
    simp_all [AzureAdTokenValidator.create, jsFalsyStr_iff]

/-- Witness for C2 (amended): missing `tenantId` fails construction with the
source's error message. -/
theorem construction_checks_tenant_and_audience_only_witness :
    AzureAdTokenValidator.create optsNoTenant =
      Except.error "\"tenantId\" value was not provided" :=
  (construction_checks_tenant_and_audience_only optsNoTenant).1 rfl

/-- **C10**: every result of `validateRules` and every (non-thrown) result of
`validate` carries a `validationMessage` exactly when `isValid` is false. -/
theorem result_message_iff_invalid {T : Type} (v : T)
    (rules : List (SimpleValidationRule T)) (env : ValidateEnv)
    (opts : AzureAdTokenValidationOptions) (cache : SimpleCache AzureAdKeyValue)
    (tok : String) (res : AzureAdTokenValidationResult)
    (cache2 : SimpleCache AzureAdKeyValue) (tr : ValidateTrace) :
    ((validateRules v rules).validationMessage.isSome = true ↔
      (validateRules v rules).isValid = false) ∧
    (validate env opts cache tok = Except.ok (res, cache2, tr) →
      (res.validationMessage.isSome = true ↔ res.isValid = false)) := by
  refine ⟨validateRules_message_iff v rules, fun h => ?_⟩
  simp only [validate] at h
  repeat' split at h
  any_goals exact Except.noConfusion h
  all_goals
    simp only [Except.ok.injEq, Prod.mk.injEq] at h
    obtain ⟨hres, -⟩ := h
    subst hres
    simp_all [validateRules_message_iff, validateAdditionalClaims]

/-- Witness for C10: on a concrete full run (all three stages pass) the result
is valid and carries no message. -/
theorem result_message_iff_invalid_witness :
    ((validateRules pScpAB
        [ { validate := fun p => tenantCheck "tenant" p,
            invalidMessage := "tenantId does not match" } ]).validationMessage.isSome =
          true ↔
      (validateRules pScpAB
        [ { validate := fun p => tenantCheck "tenant" p,
            invalidMessage := "tenantId does not match" } ]).isValid = false) :=
  (result_message_iff_invalid pScpAB
    [ { validate := fun p => tenantCheck "tenant" p,
        invalidMessage := "tenantId does not match" } ]
    { metadataLoaded := true, metadataFetch := Except.ok (),
      decodeResult := none, jwksFetch := Except.ok [],
      verify := fun _ => VerifyOutcome.verified }
    exOpts (SimpleCache.empty AzureAdKeyValue) "tok"
    { accessToken := "tok", decodedAccessToken := none, isValid := false,
      validationMessage := some "The access token could not be decoded" }
    (SimpleCache.empty AzureAdKeyValue)
    { verifyCall := none, jwksFetchCount := 0 }).1

/-- Re-reading the key the whole batch was stored under yields the last key of
the batch. -/
theorem foldl_setItem_getItem_append {T : Type} (cache : SimpleCache T)
    (key : String) (ks : List T) (k : T) :
    ((ks ++ [k]).foldl (fun c v => c.setItem key v) cache).getItem key = some k := by
  rw [List.foldl_append]
  simp [SimpleCache.getItem, SimpleCache.setItem]

/-- Keys other than the one written by the batch loop are untouched. -/
theorem foldl_setItem_getItem_other {T : Type} (cache : SimpleCache T)
    (key key2 : String) (l : List T) (hne : key2 ≠ key) :
    ((l.foldl (fun c v => c.setItem key v) cache).getItem key2 = cache.getItem key2) := by
  induction l generalizing cache with
  | nil => rfl
  | cons v vs ih =>
    rw [List.foldl_cons, ih]
    simp [SimpleCache.getItem, SimpleCache.setItem, Ne.symm hne]

/-- **C8**: a key identifier already present in the cache is resolved from the
cache with zero fetches (first conjunct), and after any resolution that
returned a key, resolving the same token's key identifier again performs zero
fetches and returns the same key, whatever the network would now answer
(second conjunct). -/
theorem cache_hit_skips_fetch
    (jwksFetch jwksFetch2 : Except String (List AzureAdKeyValue))
    (cache : SimpleCache AzureAdKeyValue) (token : Jwt) (kid : String)
    (k : AzureAdKeyValue) :
    (token.header.kid = some kid → kid ≠ "" → cache.getItem kid = some k →
      getPublicKey jwksFetch cache token = Except.ok (some k, cache, 0)) ∧
    (∀ k2 cache2 n,
      getPublicKey jwksFetch cache token = Except.ok (some k2, cache2, n) →
      getPublicKey jwksFetch2 cache2 token = Except.ok (some k2, cache2, 0)) := by
  constructor
  · intro hkid hne hc
    have hf : jsFalsyStr kid = false := by
      rw [← Bool.not_eq_true, jsFalsyStr_iff]
      exact hne
    simp [getPublicKey, hkid, hf, hc]
  · intro k2 cache2 n h
    cases hkid : token.header.kid with
    | none => simp [getPublicKey, hkid] at h
    | some kid2 =>
      by_cases hf : jsFalsyStr kid2
      · simp [getPublicKey, hkid, hf] at h
      · cases hc : cache.getItem kid2 with
        | some cachedKey =>
          simp [getPublicKey, hkid, hf, hc] at h
          obtain ⟨h1, h2, -⟩ := h
          subst h2
          simp [getPublicKey, hkid, hf, hc, h1]
        | none =>
          cases jf : jwksFetch with
          | error e => simp [getPublicKey, hkid, hf, hc, jf] at h
          | ok keys =>
            simp [getPublicKey, hkid, hf, hc, jf] at h
            obtain ⟨h1, h2, -⟩ := h
            subst h2
            simp [getPublicKey, hkid, hf, h1]

/-- Witness for C8: key `"k1"` pre-stored in a concrete cache is returned with
zero fetches, whatever the fetch would answer. -/
theorem cache_hit_skips_fetch_witness :
    getPublicKey (Except.error "network down")
        (SimpleCache.setItem (SimpleCache.empty AzureAdKeyValue) "k1" exKey1)
        exJwtK1 =
      Except.ok
        (some exKey1,
         SimpleCache.setItem (SimpleCache.empty AzureAdKeyValue) "k1" exKey1, 0) :=
  (cache_hit_skips_fetch (Except.error "network down") (Except.ok [])
      (SimpleCache.setItem (SimpleCache.empty AzureAdKeyValue) "k1" exKey1)
      exJwtK1 "k1" exKey1).1 rfl (by decide) (by decide)

/-- **C9**: on a cache miss (requested id `kid`, truthy, not cached) with a
successful fetch: an empty key list leaves the cache unchanged and resolves to
nothing (one fetch); a non-empty key list resolves to the **last** key of the
response — each fetched key having been stored under the requested identifier
`kid`, later writes overwriting earlier ones — with no constraint relating that
key's own `kid` field to the requested identifier, and no other cache entry is
touched. -/
theorem key_miss_returns_last_fetched (token : Jwt) (kid : String)
    (cache : SimpleCache AzureAdKeyValue) (keys ks : List AzureAdKeyValue)
    (k : AzureAdKeyValue)
    (hkid : token.header.kid = some kid) (hne : kid ≠ "")
    (hmiss : cache.getItem kid = none) :
    (getPublicKey (Except.ok []) cache token = Except.ok (none, cache, 1)) ∧
    (keys = ks ++ [k] →
      ∃ cache2, getPublicKey (Except.ok keys) cache token =
          Except.ok (some k, cache2, 1) ∧
        cache2.getItem kid = some k ∧
        ∀ kid2, kid2 ≠ kid → cache2.getItem kid2 = cache.getItem kid2) := by
  have hf : jsFalsyStr kid = false := by
    rw [← Bool.not_eq_true, jsFalsyStr_iff]
    exact hne
  constructor
  · simp [getPublicKey, hkid, hf, hmiss]
  · intro hkeys
    subst hkeys
    refine ⟨(ks ++ [k]).foldl (fun c v => c.setItem kid v) cache, ?_, ?_, ?_⟩
    · simp [getPublicKey, hkid, hf, hmiss]
      simp [SimpleCache.getItem, SimpleCache.setItem]
    · exact foldl_setItem_getItem_append cache kid ks k
    · intro kid2 hne2
      exact foldl_setItem_getItem_other cache kid kid2 (ks ++ [k]) hne2

/-- Witness for C9: fetching `[exKey1, exKey2]` for requested id `"k1"` on an
empty cache returns `exKey2` (the last of the batch, own id `"k2"` ≠ `"k1"`). -/
theorem key_miss_returns_last_fetched_witness :
    ∃ cache2, getPublicKey (Except.ok [exKey1, exKey2])
        (SimpleCache.empty AzureAdKeyValue) exJwtK1 =
        Except.ok (some exKey2, cache2, 1) ∧
      cache2.getItem "k1" = some exKey2 ∧
      ∀ kid2, kid2 ≠ "k1" → cache2.getItem kid2 =
        (SimpleCache.empty AzureAdKeyValue).getItem kid2 := by
  obtain ⟨cache2, h1, h2, h3⟩ :=
    (key_miss_returns_last_fetched exJwtK1 "k1" (SimpleCache.empty AzureAdKeyValue)
      [exKey1, exKey2] [exKey1] exKey2 rfl (by decide) (by decide)).2 rfl
  exact ⟨cache2, h1, h2, h3⟩

/-- The concrete cache produced by resolving `"k1"` on an empty cache when the
fetch answers `[exKey1, exKey2]`: both keys were stored under `"k1"`. -/
def exCacheAfterK1 : SimpleCache AzureAdKeyValue :=
  ⟨[("k1", exKey2), ("k1", exKey1)]⟩

/-- **C1 (failing input)**: requested id `"k1"`, key-set response
`[exKey1, exKey2]` (own ids `"k1"`, `"k2"`), empty cache.  The code stores
*both* keys under the requested id `"k1"` (the write of `exKey2` overwriting
that of `exKey1`, so `"k1"` now maps to the key whose own id is `"k2"`),
leaves `"k2"` uncached, and a subsequent resolution of `"k2"` performs another
fetch — the claim demands each key be cached under its own identifier and the
`"k2"` resolution be a fetch-free cache hit. -/
theorem sibling_key_not_cached_under_own_kid :
    getPublicKey (Except.ok [exKey1, exKey2]) (SimpleCache.empty AzureAdKeyValue)
        exJwtK1 =
      Except.ok (some exKey2, exCacheAfterK1, 1) ∧
    exCacheAfterK1.getItem "k1" = some exKey2 ∧
    exCacheAfterK1.getItem "k2" = none ∧
    (getPublicKey (Except.ok [exKey1, exKey2]) exCacheAfterK1 exJwtK2).map
        (fun r => (r.1, r.2.2)) = Except.ok (some exKey2, 1) := by
  decide

/-- **C4**: whenever `validate` invokes the signature-verification primitive,
it passes an algorithm list containing exactly the single algorithm declared in
the decoded token's header, the configured audience, and the configured
`validIssuers` list unchanged (`none` — an absent list — is handed through,
which in `jsonwebtoken` means the issuer is not checked). -/
theorem verify_invocation_arguments (env : ValidateEnv)
    (opts : AzureAdTokenValidationOptions) (cache : SimpleCache AzureAdKeyValue)
    (tok : String) (res : AzureAdTokenValidationResult)
    (cache2 : SimpleCache AzureAdKeyValue) (tr : ValidateTrace) (call : VerifyCall)
    (h : validate env opts cache tok = Except.ok (res, cache2, tr))
    (hc : tr.verifyCall = some call) :
    ∃ d, env.decodeResult = some d ∧
      call.algorithms = [d.header.alg] ∧
      call.audience = opts.audience ∧
      call.issuer = opts.validIssuers := by
  cases hm : metadataOutcome env with
  | error e => simp [validate, hm] at h
  | ok u =>
    cases hd : env.decodeResult with
    | none =>
      simp [validate, hm, hd] at h
      obtain ⟨-, -, htr⟩ := h
      subst htr
      simp at hc
    | some d =>
      refine ⟨d, rfl, ?_⟩
      cases hg : getPublicKey env.jwksFetch cache d with
      | error e => simp [validate, hm, hd, hg] at h
      | ok trip =>
        obtain ⟨pk, cacheK, n⟩ := trip
        cases pk with
        | none =>
          simp [validate, hm, hd, hg] at h
          obtain ⟨-, -, htr⟩ := h
          subst htr
          simp at hc
        | some publicKey =>
          cases hv : env.verify
              { token := tok,
                key := verificationKey d.header.alg publicKey,
                algorithms := [d.header.alg],
                audience := opts.audience,
                issuer := opts.validIssuers } with
          | otherError e => simp [validate, hm, hd, hg, hv] at h
          | jsonWebTokenError msg =>
            simp [validate, hm, hd, hg, hv] at h
            obtain ⟨-, -, htr⟩ := h
            subst htr
            simp at hc
            subst hc
            simp
          | verified =>
            by_cases hcl : (validateAdditionalClaims d.payload opts).isValid
            · simp [validate, hm, hd, hg, hv, hcl] at h
              obtain ⟨-, -, htr⟩ := h
              subst htr
              simp at hc
              subst hc
              simp
            · simp [validate, hm, hd, hg, hv, hcl] at h
              obtain ⟨-, -, htr⟩ := h
              subst htr
              simp at hc
              subst hc
              simp

/-- An environment for a full successful run: metadata memoized, token decoded
to `exJwtK1`, key set `[exKey1]`, signature verification succeeding. -/
def envFull : ValidateEnv :=
  { metadataLoaded := true, metadataFetch := Except.ok (),
    decodeResult := some exJwtK1, jwksFetch := Except.ok [exKey1],
    verify := fun _ => VerifyOutcome.verified }

/-- An environment whose decoder rejects the token. -/
def envDecodeFail : ValidateEnv :=
  { metadataLoaded := true, metadataFetch := Except.ok (),
    decodeResult := none, jwksFetch := Except.ok [],
    verify := fun _ => VerifyOutcome.verified }

/-- The `verify` call of the `envFull` run. -/
def exCallFull : VerifyCall :=
  { token := "tok", key := pemWrap "certOne", algorithms := ["RS256"],
    audience := "aud", issuer := none }

/-- The (valid) result of the `envFull` run. -/
def exResValid : AzureAdTokenValidationResult :=
  { accessToken := "tok", decodedAccessToken := some exJwtK1, isValid := true,
    validationMessage := none }

/-- The cache after the `envFull` run: `exKey1` stored under `"k1"`. -/
def exCacheK1 : SimpleCache AzureAdKeyValue := ⟨[("k1", exKey1)]⟩

/-- The trace of the `envFull` run: one fetch, one `verify` call. -/
def exTraceFull : ValidateTrace :=
  { verifyCall := some exCallFull, jwksFetchCount := 1 }

/-- Witness for C4: on the concrete `envFull` run, `verify` received exactly
`["RS256"]` (the declared algorithm), audience `"aud"` and issuer `none`. -/
theorem verify_invocation_arguments_witness :
    ∃ d, envFull.decodeResult = some d ∧
      exCallFull.algorithms = [d.header.alg] ∧
      exCallFull.audience = exOpts.audience ∧
      exCallFull.issuer = exOpts.validIssuers :=
  verify_invocation_arguments envFull exOpts (SimpleCache.empty AzureAdKeyValue)
    "tok" exResValid exCacheK1 exTraceFull exCallFull (by decide) rfl

/-- **C6**: the key material handed to `verify` is the first certificate value
of the resolved key wrapped in PEM certificate delimiters when the token's
declared algorithm begins with `"RS"` (`alg.indexOf("RS") === 0`), and the raw
first value otherwise. -/
theorem verification_key_material (env : ValidateEnv)
    (opts : AzureAdTokenValidationOptions) (cache : SimpleCache AzureAdKeyValue)
    (tok : String) (res : AzureAdTokenValidationResult)
    (cache2 : SimpleCache AzureAdKeyValue) (tr : ValidateTrace) (call : VerifyCall)
    (d : Jwt) (k : AzureAdKeyValue) (kc : SimpleCache AzureAdKeyValue) (n : Nat)
    (cert : String) (rest : List String)
    (h : validate env opts cache tok = Except.ok (res, cache2, tr))
    (hc : tr.verifyCall = some call)
    (hd : env.decodeResult = some d)
    (hk : getPublicKey env.jwksFetch cache d = Except.ok (some k, kc, n))
    (hx : k.x5c = cert :: rest) :
    call.key = if algIsRS d.header.alg then pemWrap cert else cert := by
  cases hm : metadataOutcome env with
  | error e => simp [validate, hm] at h
  | ok u =>
    cases hv : env.verify
        { token := tok,
          key := verificationKey d.header.alg k,
          algorithms := [d.header.alg],
          audience := opts.audience,
          issuer := opts.validIssuers } with
    | otherError e => simp [validate, hm, hd, hk, hv] at h
    | jsonWebTokenError msg =>
      simp [validate, hm, hd, hk, hv] at h
      obtain ⟨-, -, htr⟩ := h
      subst htr
      simp at hc
      subst hc
      simp [verificationKey, firstX5c, hx]
    | verified =>
      by_cases hcl : (validateAdditionalClaims d.payload opts).isValid
      · simp [validate, hm, hd, hk, hv, hcl] at h
        obtain ⟨-, -, htr⟩ := h
        subst htr
        simp at hc
        subst hc
        simp [verificationKey, firstX5c, hx]
      · simp [validate, hm, hd, hk, hv, hcl] at h
        obtain ⟨-, -, htr⟩ := h
        subst htr
        simp at hc
        subst hc
        simp [verificationKey, firstX5c, hx]

/-- Witness for C6: on the `envFull` run the declared algorithm is `"RS256"`,
so the key material is the PEM-wrapped first certificate of `exKey1`. -/
theorem verification_key_material_witness :
    exCallFull.key =
      if algIsRS exJwtK1.header.alg then pemWrap "certOne" else "certOne" :=
  verification_key_material envFull exOpts (SimpleCache.empty AzureAdKeyValue)
    "tok" exResValid exCacheK1 exTraceFull exCallFull exJwtK1 exKey1 exCacheK1 1
    "certOne" [] (by decide) rfl rfl (by decide) rfl

/-- When the key-set fetch does not fail, `getPublicKey` never throws. -/
theorem getPublicKey_ok_of_fetch_ok
    (jwksFetch : Except String (List AzureAdKeyValue))
    (cache : SimpleCache AzureAdKeyValue) (token : Jwt)
    (hjwks : ∀ e, jwksFetch ≠ Except.error e) :
    ∃ r, getPublicKey jwksFetch cache token = Except.ok r := by
  cases hkid : token.header.kid with
  | none => exact ⟨(none, cache, 0), by simp [getPublicKey, hkid]⟩
  | some kid =>
    by_cases hf : jsFalsyStr kid
    · exact ⟨(none, cache, 0), by simp [getPublicKey, hkid, hf]⟩
    · cases hc : cache.getItem kid with
      | some k => exact ⟨(some k, cache, 0), by simp [getPublicKey, hkid, hf, hc]⟩
      | none =>
        cases jf : jwksFetch with
        | error e => exact absurd jf (hjwks e)
        | ok keys =>
          refine ⟨((keys.foldl (fun c publicKey => c.setItem kid publicKey)
                      cache).getItem kid,
                   keys.foldl (fun c publicKey => c.setItem kid publicKey) cache,
                   1), ?_⟩
          simp [getPublicKey, hkid, hf, hc, jf]

/-- **C3**: when no transport failure occurs (metadata available or its fetch
succeeding, key-set fetch succeeding) and `verify` never throws an exception
other than a recognized `JsonWebTokenError`, `validate` *returns* a result —
it does not throw — and each problem class carries its stage-specific message:
decode failure `"The access token could not be decoded"`, unresolved key
`"Invalid key"`, recognized signature failure the underlying verifier message,
claims failure the failing rule's message.  (Contrapositively, only transport
failures and unrecognized verifier exceptions can propagate as thrown
exceptions.) -/
theorem validate_never_throws_for_validation_problems (env : ValidateEnv)
    (opts : AzureAdTokenValidationOptions) (cache : SimpleCache AzureAdKeyValue)
    (tok : String)
    (hmeta : metadataOutcome env = Except.ok ())
    (hjwks : ∀ e, env.jwksFetch ≠ Except.error e)
    (hver : ∀ c m, env.verify c ≠ VerifyOutcome.otherError m) :
    ∃ res cache2 tr,
      validate env opts cache tok = Except.ok (res, cache2, tr) ∧
      (env.decodeResult = none →
        res.isValid = false ∧
        res.validationMessage = some "The access token could not be decoded") ∧
      (∀ d kc n, env.decodeResult = some d →
        getPublicKey env.jwksFetch cache d = Except.ok (none, kc, n) →
        res.isValid = false ∧ res.validationMessage = some "Invalid key") ∧
      (∀ d k kc n call msg, env.decodeResult = some d →
        getPublicKey env.jwksFetch cache d = Except.ok (some k, kc, n) →
        tr.verifyCall = some call →
        env.verify call = VerifyOutcome.jsonWebTokenError msg →
        res.isValid = false ∧ res.validationMessage = some msg) ∧
      (∀ d k kc n call, env.decodeResult = some d →
        getPublicKey env.jwksFetch cache d = Except.ok (some k, kc, n) →
        tr.verifyCall = some call →
        env.verify call = VerifyOutcome.verified →
        (validateAdditionalClaims d.payload opts).isValid = false →
        res.isValid = false ∧
        res.validationMessage =
          (validateAdditionalClaims d.payload opts).validationMessage) := by
  cases hd : env.decodeResult with
  | none =>
    refine ⟨{ accessToken := tok, decodedAccessToken := none, isValid := false,
              validationMessage := some "The access token could not be decoded" },
            cache, { verifyCall := none, jwksFetchCount := 0 },
            by simp [validate, hmeta, hd], fun _ => ⟨rfl, rfl⟩, ?_, ?_, ?_⟩
    · intro d kc n hd2 _
      exact Option.noConfusion hd2
    · intro d k kc n call msg hd2 _ _ _
      exact Option.noConfusion hd2
    · intro d k kc n call hd2 _ _ _ _
      exact Option.noConfusion hd2
  | some d =>
    obtain ⟨⟨pk, kc, n⟩, hg⟩ := getPublicKey_ok_of_fetch_ok env.jwksFetch cache d hjwks
    cases pk with
    | none =>
      refine ⟨{ accessToken := tok, decodedAccessToken := some d, isValid := false,
                validationMessage := some "Invalid key" },
              kc, { verifyCall := none, jwksFetchCount := n },
              by simp [validate, hmeta, hd, hg], ?_,
              fun _ _ _ _ _ => ⟨rfl, rfl⟩, ?_, ?_⟩
      · intro hd2
        exact Option.noConfusion hd2
      · intro d2 k2 kc2 n2 call msg hd2 hg2 _ _
        injection hd2 with hdd
        subst hdd
        rw [hg] at hg2
        simp at hg2
      · intro d2 k2 kc2 n2 call hd2 hg2 _ _ _
        injection hd2 with hdd
        subst hdd
        rw [hg] at hg2
        simp at hg2
    | some publicKey =>
      cases hv : env.verify
          { token := tok,
            key := verificationKey d.header.alg publicKey,
            algorithms := [d.header.alg],
            audience := opts.audience,
            issuer := opts.validIssuers } with
      | otherError e => exact absurd hv (hver _ e)
      | jsonWebTokenError msg =>
        refine ⟨{ accessToken := tok, decodedAccessToken := some d, isValid := false,
                  validationMessage := some msg },
                kc,
                { verifyCall := some
                    { token := tok,
                      key := verificationKey d.header.alg publicKey,
                      algorithms := [d.header.alg],
                      audience := opts.audience,
                      issuer := opts.validIssuers },
                  jwksFetchCount := n },
                by simp [validate, hmeta, hd, hg, hv], ?_, ?_, ?_, ?_⟩
        · intro hd2
          exact Option.noConfusion hd2
        · intro d2 kc2 n2 hd2 hg2
          injection hd2 with hdd
          subst hdd
          rw [hg] at hg2
          simp at hg2
        · intro d2 k2 kc2 n2 call msg2 hd2 hg2 hcall hv2
          injection hd2 with hdd
          subst hdd
          simp only [Option.some.injEq] at hcall
          subst hcall
          rw [hv] at hv2
          injection hv2 with hmsg
          subst hmsg
          exact ⟨rfl, rfl⟩
        · intro d2 k2 kc2 n2 call hd2 hg2 hcall hv2 _
          injection hd2 with hdd
          subst hdd
          simp only [Option.some.injEq] at hcall
          subst hcall
          rw [hv] at hv2
          exact VerifyOutcome.noConfusion hv2
      | verified =>
        by_cases hcl : (validateAdditionalClaims d.payload opts).isValid
        · refine ⟨{ accessToken := tok, decodedAccessToken := some d,
                    isValid := true, validationMessage := none },
                  kc,
                  { verifyCall := some
                      { token := tok,
                        key := verificationKey d.header.alg publicKey,
                        algorithms := [d.header.alg],
                        audience := opts.audience,
                        issuer := opts.validIssuers },
                    jwksFetchCount := n },
                  by simp [validate, hmeta, hd, hg, hv, hcl], ?_, ?_, ?_, ?_⟩
          · intro hd2
            exact Option.noConfusion hd2
          · intro d2 kc2 n2 hd2 hg2
            injection hd2 with hdd
            subst hdd
            rw [hg] at hg2
            simp at hg2
          · intro d2 k2 kc2 n2 call msg2 hd2 hg2 hcall hv2
            injection hd2 with hdd
            subst hdd
            simp only [Option.some.injEq] at hcall
            subst hcall
            rw [hv] at hv2
            exact VerifyOutcome.noConfusion hv2
          · intro d2 k2 kc2 n2 call hd2 hg2 hcall hv2 hcl2
            injection hd2 with hdd
            subst hdd
            rw [hcl2] at hcl
            exact Bool.noConfusion hcl
        · refine ⟨{ accessToken := tok, decodedAccessToken := some d,
                    isValid := false,
                    validationMessage :=
                      (validateAdditionalClaims d.payload opts).validationMessage },
                  kc,
                  { verifyCall := some
                      { token := tok,
                        key := verificationKey d.header.alg publicKey,
                        algorithms := [d.header.alg],
                        audience := opts.audience,
                        issuer := opts.validIssuers },
                    jwksFetchCount := n },
                  by simp [validate, hmeta, hd, hg, hv, hcl], ?_, ?_, ?_, ?_⟩
          · intro hd2
            exact Option.noConfusion hd2
          · intro d2 kc2 n2 hd2 hg2
            injection hd2 with hdd
            subst hdd
            rw [hg] at hg2
            simp at hg2
          · intro d2 k2 kc2 n2 call msg2 hd2 hg2 hcall hv2
            injection hd2 with hdd
            subst hdd
            simp only [Option.some.injEq] at hcall
            subst hcall
            rw [hv] at hv2
            exact VerifyOutcome.noConfusion hv2
          · intro d2 k2 kc2 n2 call hd2 hg2 hcall hv2 hcl2
            injection hd2 with hdd
            subst hdd
            exact ⟨rfl, rfl⟩

/-- Witness for C3: on a concrete environment whose decoder rejects the token
(no transport failure, benign verifier), `validate` returns — rather than
throws — the decode-stage result. -/
theorem validate_never_throws_witness :
    ∃ res cache2 tr,
      validate envDecodeFail exOpts (SimpleCache.empty AzureAdKeyValue) "tok" =
        Except.ok (res, cache2, tr) ∧
      res.isValid = false ∧
      res.validationMessage = some "The access token could not be decoded" := by
  obtain ⟨res, c2, tr, hok, hdec, -, -, -⟩ :=
    validate_never_throws_for_validation_problems envDecodeFail exOpts
      (SimpleCache.empty AzureAdKeyValue) "tok" rfl
      (fun e h => by simp [envDecodeFail] at h)
      (fun c m h => by simp [envDecodeFail] at h)
  obtain ⟨h1, h2⟩ := hdec rfl
  exact ⟨res, c2, tr, hok, h1, h2⟩
